import Mathlib

/-!
Verification of the star-state engine of `script.js` (Openroot helping-hand
page, production version 1.3.3).

The development shallowly embeds the engine's core:
identity resolution (`resolveUSER_UID`), the per-user star registry
(`Registry`, a JS-`Map`-like insertion-ordered association list of
JS-`Set`-like insertion-ordered card-id lists), the capacity-bounded toggle
state machine (`toggleStar`), the persistence shape (`snapshot` / `hydrate`),
the card indexer (`setupCards`), and the two DOM reordering entry points
(`reorderSegment`, `repositionCard`).

JS `Set` objects preserve insertion order; they are modelled as duplicate-free
`List String` values in insertion order (`setAdd` appends when absent,
`values().next().value` is the head).  JS `Map` objects preserve key insertion
order and update in place; they are modelled as association lists where
`mapSet` replaces in place when the key exists and appends otherwise.
-/

/-- A card identifier (`card.dataset.id`).  The empty string models a missing
`dataset.id` attribute (falsy in JS). -/
abbrev CardId := String

/-- A segment identifier (`seg.dataset.segId`). -/
abbrev SegId := String

/-- The capacity constant `MAX_STARS = 5` (script.js line 61). -/
def MAX_STARS : Nat := 5

/-! ## Identity resolution (script.js lines 10-38)

`decodeURIComponent` is the one JS builtin the resolver calls that can throw
(`URIError` on a malformed escape sequence or invalid UTF-8).  It is modelled
as an `Option`-returning percent/UTF-8 decoder; `none` models the thrown
`URIError`, which line 23 of the source does not catch. -/

/-- Numeric value of a hexadecimal digit, `none` for a non-hex character. -/
def hexVal (c : Char) : Option Nat :=
  if '0' ≤ c ∧ c ≤ '9' then some (c.toNat - 48)
  else if 'A' ≤ c ∧ c ≤ 'F' then some (c.toNat - 55)
  else if 'a' ≤ c ∧ c ≤ 'f' then some (c.toNat - 87)
  else none

/-- One unit of a percent-decoded URI component: either a character that was
not escaped, or one byte produced by a `%XX` escape sequence. -/
inductive DecUnit where
  | raw (c : Char)
  | byte (b : Nat)
deriving DecidableEq

/-- First phase of `decodeURIComponent`: each `%` must be followed by exactly
two hexadecimal digits and yields a byte; every other character passes
through.  `none` models the `URIError` thrown on a malformed escape. -/
def percentUnits : List Char → Option (List DecUnit)
  | [] => some []
  | '%' :: c1 :: c2 :: rest =>
      match hexVal c1, hexVal c2 with
      | some h1, some h2 =>
          (percentUnits rest).map (fun us => DecUnit.byte (16 * h1 + h2) :: us)
      | _, _ => none
  | '%' :: _ => none
  | c :: rest => (percentUnits rest).map (fun us => DecUnit.raw c :: us)

/-- Whether a byte is a UTF-8 continuation byte (`0x80`-`0xBF`). -/
def isCont (b : Nat) : Prop := 0x80 ≤ b ∧ b ≤ 0xBF

instance (b : Nat) : Decidable (isCont b) := by unfold isCont; infer_instance

/-- Second phase of `decodeURIComponent`: the bytes produced by escape
sequences must form valid UTF-8 code points (no stray or missing continuation
bytes, no overlong forms, no surrogates, at most `U+10FFFF`); raw characters
pass through.  `none` models the `URIError` thrown on invalid UTF-8. -/
def utf8DecodeUnits : List DecUnit → Option (List Char)
  | [] => some []
  | .raw c :: rest => (utf8DecodeUnits rest).map (fun cs => c :: cs)
  | .byte b :: rest =>
      if b < 0x80 then
        (utf8DecodeUnits rest).map (fun cs => Char.ofNat b :: cs)
      else if b < 0xC2 then none
      else if b < 0xE0 then
        match rest with
        | .byte b2 :: rest2 =>
            if isCont b2 then
              (utf8DecodeUnits rest2).map
                (fun cs => Char.ofNat ((b - 0xC0) * 64 + (b2 - 0x80)) :: cs)
            else none
        | _ => none
      else if b < 0xF0 then
        match rest with
        | .byte b2 :: .byte b3 :: rest3 =>
            let cp := (b - 0xE0) * 4096 + (b2 - 0x80) * 64 + (b3 - 0x80)
            if isCont b2 ∧ isCont b3 ∧ 0x800 ≤ cp ∧ ¬(0xD800 ≤ cp ∧ cp ≤ 0xDFFF) then
              (utf8DecodeUnits rest3).map (fun cs => Char.ofNat cp :: cs)
            else none
        | _ => none
      else if b < 0xF5 then
        match rest with
        | .byte b2 :: .byte b3 :: .byte b4 :: rest4 =>
            let cp := (b - 0xF0) * 262144 + (b2 - 0x80) * 4096 +
              (b3 - 0x80) * 64 + (b4 - 0x80)
            if isCont b2 ∧ isCont b3 ∧ isCont b4 ∧ 0x10000 ≤ cp ∧ cp ≤ 0x10FFFF then
              (utf8DecodeUnits rest4).map (fun cs => Char.ofNat cp :: cs)
            else none
        | _ => none
      else none

/-- Model of the JS builtin `decodeURIComponent`.  `none` models a thrown
`URIError` (malformed `%` escape or invalid UTF-8 byte sequence). -/
def decodeURIComponent (s : String) : Option String :=
  match percentUnits s.toList with
  | none => none
  | some us =>
      match utf8DecodeUnits us with
      | none => none
      | some cs => some (String.mk cs)

/-- JS `a || b` on nullable strings: `a` wins unless it is `null` or the empty
string (both falsy). -/
def jsOrS : Option String → Option String → Option String
  | some s, b => if s = "" then b else some s
  | none, b => b

/-- The storage/query environment the identity resolver reads at startup.
`queryUid` and `queryUser` are `urlParams.get("uid")` / `urlParams.get("user")`
(already form-decoded by `URLSearchParams`, `none` when the parameter is
absent); the other fields are the raw `localStorage` / `sessionStorage` reads
(`none` models a `null` result). -/
structure Env where
  queryUid : Option String
  queryUser : Option String
  lsMainUid : Option String
  ssMainUid : Option String
  lsCachedUid : Option String
deriving DecidableEq

/-- Line 13: `urlParams.get("uid") || urlParams.get("user") || null`. -/
def uidFromUrl (e : Env) : Option String :=
  jsOrS e.queryUid (jsOrS e.queryUser none)

/-- Lines 15-17: `(localStorage.getItem("openrootUserUID") ||
sessionStorage.getItem("openrootUserUID")) || null`. -/
def uidFromMainSite (e : Env) : Option String :=
  jsOrS e.lsMainUid (jsOrS e.ssMainUid none)

/-- Line 19: `localStorage.getItem("openroot_current_uid") || null`. -/
def cachedUid (e : Env) : Option String :=
  jsOrS e.lsCachedUid none

/-- The UID resolution chain (lines 22-30): URL token (URL-decoded, may
throw), else main-site token, else cached token, else the guest literal.
`none` models the uncaught `URIError` escaping from line 23 and killing the
whole script. -/
def resolveUSER_UID (e : Env) : Option String :=
  match uidFromUrl e with
  | some u => decodeURIComponent u
  | none =>
      match uidFromMainSite e with
      | some m => some m
      | none =>
          match cachedUid e with
          | some c => some c
          | none => some "guest_user"

/-- Condition of the cache write at lines 33-35:
`USER_UID && USER_UID !== cachedUid`. -/
def uidPersistWrite (resolved : String) (cached : Option String) : Bool :=
  resolved != "" && some resolved != cached

/-! ## Star registry (JS `Map` of JS `Set`s) -/

/-- The in-memory registry `this.starredMap`: segment id to insertion-ordered
starred card-id list, entries in key insertion order. -/
abbrev Registry := List (SegId × List CardId)

/-- The persisted shape (`{ [segId]: [cardId, ...] }`), entries in key order,
lists in star insertion order. -/
abbrev Persisted := List (SegId × List CardId)

/-- JS `Map.prototype.get`. -/
def mapGet : Registry → SegId → Option (List CardId)
  | [], _ => none
  | kv :: rest, k => if kv.1 = k then some kv.2 else mapGet rest k

/-- JS `Map.prototype.has`. -/
def mapHas (m : Registry) (k : SegId) : Bool :=
  (mapGet m k).isSome

/-- JS `Map.prototype.set`: replace in place when the key exists (keeping its
position), append otherwise. -/
def mapSet : Registry → SegId → List CardId → Registry
  | [], k, v => [(k, v)]
  | kv :: rest, k, v =>
      if kv.1 = k then (k, v) :: rest else kv :: mapSet rest k v

/-- Line 261 (also setupCards lines 158-160):
`if (!this.starredMap.has(segId)) this.starredMap.set(segId, new Set())`. -/
def ensureSegment (m : Registry) (k : SegId) : Registry :=
  if mapHas m k then m else mapSet m k []

/-- JS `Set.prototype.add` on an insertion-ordered set: append when absent. -/
def setAdd (s : List CardId) (x : CardId) : List CardId :=
  if x ∈ s then s else s ++ [x]

/-- The constructor call `new Set(ids)`: insert the elements in order, keeping the
first occurrence of each duplicate. -/
def jsSetOfList (l : List CardId) : List CardId :=
  l.foldl setAdd []

/-- Lines 270-271: `const oldest = segSet.values().next().value;
if (oldest) segSet.delete(oldest);` — the first-inserted member is removed,
unless the set is empty (`oldest` undefined) or the first member is the empty
string (falsy); in those cases nothing is deleted. -/
def evictOldest (s : List CardId) : List CardId :=
  match s.head? with
  | none => s
  | some oldest => if oldest = "" then s else s.erase oldest

/-- Lines 265-272 without the confirmation prompt (handled by the caller):
when the requested card is absent and the set is at or above capacity, evict
the oldest member. -/
def maybeEvict (s : List CardId) (id : CardId) : List CardId :=
  if id ∉ s ∧ MAX_STARS ≤ s.length then evictOldest s else s

/-- Lines 274-280: delete the card if present (now unstarred), otherwise add
it (now starred).  Returns the new set and the card's new starred flag. -/
def starToggleSet (s : List CardId) (id : CardId) : List CardId × Bool :=
  if id ∈ s then (s.erase id, false) else (setAdd s id, true)

/-- Lines 284-287: `toSave[k] = Array.from(set)` for every registry entry —
materialize each insertion-ordered set as a list, keeping key order. -/
def snapshot (m : Registry) : Persisted :=
  m.map (fun kv => (kv.1, kv.2))

/-- Init lines 115-123: for each persisted entry, in order,
`this.starredMap.set(segId, new Set(ids))` starting from an empty map. -/
def hydrate (p : Persisted) : Registry :=
  p.foldl (fun m kv => mapSet m kv.1 (jsSetOfList kv.2)) []

/-! ## Star-button presentation state and the toggle operation -/

/-- The three attributes `updateStarAttr` writes on a star button
(script.js lines 177-181). -/
structure BtnAttrs where
  starredClass : Bool
  ariaPressed : String
  ariaLabel : String
deriving DecidableEq

/-- Lines 177-181: `updateStarAttr(btn, isStarred)`. -/
def updateStarAttr (isStarred : Bool) : BtnAttrs :=
  { starredClass := isStarred
    ariaPressed := if isStarred then "true" else "false"
    ariaLabel := if isStarred then "Unstar card" else "Star card" }

/-- The engine state a toggle touches: the registry plus the per-card
star-button presentation attributes. -/
structure AppState where
  starred : Registry
  attrs : CardId → BtnAttrs

/-- All star buttons initially unstarred-presenting. -/
def defaultAttrs : CardId → BtnAttrs :=
  fun _ => updateStarAttr false

/-- The toggle operation (script.js lines 240-300) after the card and segment have
been resolved: `segId` is the card's segment id and `id` its
`dataset.id` (the empty string models a missing id, rejected at line 248).
`confirm` is the user's answer to the capacity prompt, read only when the
prompt is shown.  Returns the new state together with the snapshot passed to
`Storage.set` (`none` when the operation aborts before saving). -/
def toggleStar (st : AppState) (segId : SegId) (id : CardId) (confirm : Bool) :
    AppState × Option Persisted :=
  if id = "" then (st, none)
  else
    let m0 := ensureSegment st.starred segId
    let segSet := (mapGet m0 segId).getD []
    if id ∉ segSet ∧ MAX_STARS ≤ segSet.length ∧ ¬confirm then
      ({ starred := m0, attrs := st.attrs }, none)
    else
      let r := starToggleSet (maybeEvict segSet id) id
      let m1 := mapSet m0 segId r.1
      ({ starred := m1
         attrs := fun c => if c = id then updateStarAttr r.2 else st.attrs c },
       some (snapshot m1))

/-- Registry states the engine can actually be in: the empty registry of a
fresh profile, lazily ensured empty segment sets (setupCards), the result of
any toggle, and the rehydration of a persisted snapshot on the next page
load. -/
inductive Reachable : Registry → Prop
  | empty : Reachable []
  | ensureSeg (k : SegId) {m : Registry} :
      Reachable m → Reachable (ensureSegment m k)
  | toggle (a : CardId → BtnAttrs) (segId : SegId) (id : CardId)
      (confirm : Bool) {m : Registry} :
      Reachable m →
      Reachable (toggleStar { starred := m, attrs := a } segId id confirm).1.starred
  | reload {m : Registry} :
      Reachable m → Reachable (hydrate (snapshot m))

/-! ## Segment reordering engine (script.js lines 302-368)

A DOM card node is modelled by its `dataset.id` and the number
`Number(card.dataset.origIndex) || 0`.  A segment's children are a list in
current DOM order. -/

/-- A card element as the reordering code reads it. -/
structure Card where
  id : String
  origIndex : Nat
deriving DecidableEq

/-- JS `Array.prototype.sort` with the comparator
`(a, b) => origIndex(a) - origIndex(b)`: a stable ascending sort by
`origIndex`.  Stable-sort results are unique, so the structural insertion
sort is an exact model of the builtin. -/
def sortByOrigIndex (l : List Card) : List Card :=
  l.insertionSort (fun a b => a.origIndex ≤ b.origIndex)

/-- The full reorder (lines 302-332): partition the segment's children in
current DOM order into starred (`id && segSet.has(id)`) and unstarred, sort
the unstarred by original index, and lay out starred first.  Segments with at
most one card are left untouched. -/
def reorderSegment (cards : List Card) (segSet : List CardId) : List Card :=
  if cards.length ≤ 1 then cards
  else
    let parts := cards.partition (fun c => c.id != "" && segSet.contains c.id)
    parts.1 ++ sortByOrigIndex parts.2

/-- Lines 350: `cards.reduce((acc, c, idx) => (segSet.has(c.dataset.id) ? idx
: acc), -1)` — index of the last starred card, `-1` when none. -/
def lastStarIdx (cards : List Card) (segSet : List CardId) : Int :=
  cards.enum.foldl
    (fun acc ic => if segSet.contains ic.2.id then (ic.1 : Int) else acc) (-1)

/-- Lines 353-360: the first card strictly after position `start` whose
original index exceeds `orig`. -/
def findBeforeNode (cards : List Card) (start : Int) (orig : Nat) : Option Card :=
  (cards.enum.find? (fun ic => start < (ic.1 : Int) && orig < ic.2.origIndex)).map
    (fun ic => ic.2)

/-- Insert `c` immediately before the first occurrence of `ref` (the list is
assumed to contain `ref`; DOM `insertBefore` would throw otherwise). -/
def insertBeforeRef : List Card → Card → Card → List Card
  | [], c, _ => [c]
  | x :: xs, c, ref =>
      if x = ref then c :: x :: xs else x :: insertBeforeRef xs c ref

/-- DOM `segment.insertBefore(card, ref)` when `card` is already a child:
the node is detached from its current position and inserted before `ref`. -/
def domInsertBefore (cards : List Card) (c ref : Card) : List Card :=
  insertBeforeRef (cards.erase c) c ref

/-- DOM `segment.appendChild(card)` when `card` is already a child: the node
is detached and appended at the end. -/
def domAppend (cards : List Card) (c : Card) : List Card :=
  cards.erase c ++ [c]

/-- The incremental reposition (lines 334-368) restricted to its pure effect on the
segment's child order: `cards` is the current DOM order (containing `card`)
and `segSet` the segment's starred set at reposition time. -/
def repositionCard (cards : List Card) (segSet : List CardId) (card : Card) :
    List Card :=
  if segSet.contains card.id then
    match cards.find? (fun c => !(segSet.contains c.id)) with
    | some firstUn => domInsertBefore cards card firstUn
    | none => domAppend cards card
  else
    match findBeforeNode cards (lastStarIdx cards segSet) card.origIndex with
    | some ref => domInsertBefore cards card ref
    | none => domAppend cards card

/-! ## Card indexer (`setupCards`, script.js lines 140-162) -/

/-- A card element as the indexer reads and writes it: `dataset.id` (empty
string models a missing attribute) and `dataset.origIndex` (`none` models a
missing attribute). -/
structure CardDom where
  id : String
  origIndex : Option Nat
deriving DecidableEq

/-- A segment container element: its `dataset.segId`, its `id` attribute, its
`className` (empty strings model missing/empty values, which are falsy), and
its card children in DOM order. -/
structure SegDom where
  segId : String
  idAttr : String
  className : String
  cards : List CardDom
deriving DecidableEq

/-- JS `\s` whitespace (the common characters). -/
def isWS (c : Char) : Bool :=
  c = ' ' || c = '\t' || c = '\n' || c = '\r' || c = '\x0b' || c = '\x0c'

/-- The call `label.replace(/\s+/g, "_")`: each maximal whitespace run becomes one
underscore.  The flag records whether the previous character was whitespace. -/
def collapseWSAux : Bool → List Char → List Char
  | _, [] => []
  | prevWS, c :: rest =>
      if isWS c then
        if prevWS then collapseWSAux true rest
        else '_' :: collapseWSAux true rest
      else c :: collapseWSAux false rest

/-- Line 148: `label.replace(/\s+/g, "_").toLowerCase()`. -/
def normalizeLabel (s : String) : String :=
  String.mk ((collapseWSAux false s.toList).map Char.toLower)

/-- Lines 152-155 for one segment's card list: assign `card-${++autoId}` to
cards lacking an id, and unconditionally set `dataset.origIndex` to the
card's current position.  Returns the updated counter and cards. -/
def assignCards (autoId : Nat) (idx : Nat) : List CardDom → Nat × List CardDom
  | [] => (autoId, [])
  | c :: rest =>
      let autoId1 := if c.id = "" then autoId + 1 else autoId
      let cid := if c.id = "" then "card-" ++ toString (autoId + 1) else c.id
      let res := assignCards autoId1 (idx + 1) rest
      (res.1, { id := cid, origIndex := some idx } :: res.2)

/-- Lines 145-160 for one segment: derive a deterministic `segId` when
missing (`id` attribute, else class list, else `"segment"`, normalized), then
index the segment's cards. -/
def setupSeg (autoId : Nat) (seg : SegDom) : Nat × SegDom :=
  let segId1 :=
    if seg.segId = "" then
      normalizeLabel
        (if seg.idAttr ≠ "" then seg.idAttr
         else if seg.className ≠ "" then seg.className
         else "segment")
    else seg.segId
  let res := assignCards autoId 0 seg.cards
  (res.1, { seg with segId := segId1, cards := res.2 })

/-- The indexer (lines 140-162) restricted to its effect on DOM attributes:
the fresh-id counter starts at 0 on every run and threads across segments. -/
def setupCards (autoId : Nat) : List SegDom → Nat × List SegDom
  | [] => (autoId, [])
  | seg :: rest =>
      let r1 := setupSeg autoId seg
      let r2 := setupCards r1.1 rest
      (r2.1, r1.2 :: r2.2)

/-! ## Concrete fixtures used by scenario theorems and witnesses -/

/-- Card with original index 0 in the five-card scenario segment. -/
def d0 : Card := { id := "card0", origIndex := 0 }

/-- Card with original index 1. -/
def d1 : Card := { id := "card1", origIndex := 1 }

/-- Card with original index 2. -/
def d2 : Card := { id := "card2", origIndex := 2 }

/-- Card with original index 3. -/
def d3 : Card := { id := "card3", origIndex := 3 }

/-- Card with original index 4. -/
def d4 : Card := { id := "card4", origIndex := 4 }

/-! ## Registry lemmas -/

theorem mapGet_mem {m : Registry} {k : SegId} {v : List CardId}
    (h : mapGet m k = some v) : (k, v) ∈ m := by
  induction m with
  | nil => simp [mapGet] at h
  | cons kv rest ih =>
      by_cases hk : kv.1 = k
      · simp [mapGet, hk] at h
        subst h
        rw [← hk]
        exact List.mem_cons_self _ _
      · simp [mapGet, hk] at h
        exact List.mem_cons_of_mem _ (ih h)

theorem mapGet_mapSet_self (m : Registry) (k : SegId) (v : List CardId) :
    mapGet (mapSet m k v) k = some v := by
  induction m with
  | nil => simp [mapGet, mapSet]
  | cons kv rest ih =>
      by_cases hk : kv.1 = k
      · simp [mapGet, mapSet, hk]
      · simp [mapGet, mapSet, hk, ih]

theorem mem_mapSet {m : Registry} {k : SegId} {v : List CardId} {p : SegId × List CardId}
    (h : p ∈ mapSet m k v) : p = (k, v) ∨ p ∈ m := by
  induction m with
  | nil => simp [mapSet] at h; simp [h]
  | cons kv rest ih =>
      by_cases hk : kv.1 = k
      · simp [mapSet, hk] at h
        rcases h with h | h
        · left; simp [h]
        · right; exact List.mem_cons_of_mem _ h
      · simp [mapSet, hk] at h
        rcases h with h | h
        · right; simp [h]
        · rcases ih h with h1 | h1
          · left; exact h1
          · right; exact List.mem_cons_of_mem _ h1

theorem mapGet_none_not_mem_keys {m : Registry} {k : SegId}
    (h : mapGet m k = none) : k ∉ m.map Prod.fst := by
  induction m with
  | nil => simp
  | cons kv rest ih =>
      by_cases hk : kv.1 = k
      · simp [mapGet, hk] at h
      · simp [mapGet, hk] at h
        simp [ih h]
        exact fun hkk => hk hkk.symm

theorem keys_mapSet_of_has {m : Registry} {k : SegId} (v : List CardId)
    (h : mapHas m k = true) :
    (mapSet m k v).map Prod.fst = m.map Prod.fst := by
  induction m with
  | nil => simp [mapHas, mapGet] at h
  | cons kv rest ih =>
      by_cases hk : kv.1 = k
      · simp [mapSet, hk]
      · simp [mapHas, mapGet, hk] at h
        simp [mapSet, hk]
        exact ih h

theorem keys_mapSet_of_not_has {m : Registry} {k : SegId} (v : List CardId)
    (h : mapHas m k = false) :
    (mapSet m k v).map Prod.fst = m.map Prod.fst ++ [k] := by
  induction m with
  | nil => simp [mapSet]
  | cons kv rest ih =>
      by_cases hk : kv.1 = k
      · simp [mapHas, mapGet, hk] at h
      · simp [mapHas, mapGet, hk] at h
        simp [mapSet, hk]
        exact ih (by simp [mapHas, h])

theorem mapSet_eq_append {m : Registry} {k : SegId} (v : List CardId)
    (h : mapGet m k = none) : mapSet m k v = m ++ [(k, v)] := by
  induction m with
  | nil => simp [mapSet]
  | cons kv rest ih =>
      by_cases hk : kv.1 = k
      · simp [mapGet, hk] at h
      · simp [mapGet, hk] at h
        simp [mapSet, hk, ih h]

theorem mapGet_append (a b : Registry) (k : SegId) :
    mapGet (a ++ b) k =
      match mapGet a k with
      | some v => some v
      | none => mapGet b k := by
  induction a with
  | nil => simp [mapGet]
  | cons kv rest ih =>
      by_cases hk : kv.1 = k
      · simp [mapGet, hk]
      · simp [mapGet, hk, ih]

/-- A well-formed segment set: duplicate-free (it models a JS `Set`), within
the star capacity, and free of the empty string (no card with a missing id is
ever added). -/
def SegSetOK (s : List CardId) : Prop :=
  s.Nodup ∧ s.length ≤ MAX_STARS ∧ "" ∉ s

/-- A well-formed registry: duplicate-free keys (it models a JS `Map`) and
well-formed segment sets. -/
def RegOK (m : Registry) : Prop :=
  (m.map Prod.fst).Nodup ∧ ∀ kv ∈ m, SegSetOK kv.2

theorem regOK_nil : RegOK [] := by simp [RegOK]

theorem regOK_mapSet {m : Registry} {k : SegId} {v : List CardId}
    (hm : RegOK m) (hv : SegSetOK v) : RegOK (mapSet m k v) := by
  obtain ⟨hkeys, hvals⟩ := hm
  constructor
  · cases hhas : mapHas m k with
    | true => rw [keys_mapSet_of_has v hhas]; exact hkeys
    | false =>
        rw [keys_mapSet_of_not_has v hhas]
        have hk : k ∉ m.map Prod.fst := by
          apply mapGet_none_not_mem_keys
          simpa [mapHas, Option.isSome_iff_exists] using hhas
        simp [List.nodup_append, hkeys, hk]
  · intro kv hkv
    rcases mem_mapSet hkv with h | h
    · simp [h, hv]
    · exact hvals kv h

theorem segSetOK_of_regOK {m : Registry} {k : SegId} {s : List CardId}
    (hm : RegOK m) (h : mapGet m k = some s) : SegSetOK s :=
  hm.2 (k, s) (mapGet_mem h)

theorem regOK_ensureSegment {m : Registry} (k : SegId) (hm : RegOK m) :
    RegOK (ensureSegment m k) := by
  unfold ensureSegment
  split
  · exact hm
  · exact regOK_mapSet hm (by simp [SegSetOK, MAX_STARS])

theorem mapGet_ensureSegment_self (m : Registry) (k : SegId) :
    mapGet (ensureSegment m k) k = some ((mapGet m k).getD []) := by
  unfold ensureSegment
  cases hget : mapGet m k with
  | some s => simp [mapHas, hget]
  | none => simp [mapHas, hget, mapGet_mapSet_self]

theorem segSetOK_getD {m : Registry} {k : SegId} (hm : RegOK m) :
    SegSetOK ((mapGet m k).getD []) := by
  cases hget : mapGet m k with
  | some s => simpa using segSetOK_of_regOK hm hget
  | none => simp [SegSetOK, MAX_STARS]

/-! ## Set-level toggle lemmas -/

theorem evictOldest_full {s : List CardId} (hlen : s.length = MAX_STARS)
    (hne : "" ∉ s) : evictOldest s = s.tail := by
  cases s with
  | nil => simp [MAX_STARS] at hlen
  | cons h t =>
      have hh : h ≠ "" := by
        intro he
        exact hne (by simp [he])
      simp [evictOldest, hh, List.erase_cons_head]

theorem segSetOK_toggle {s : List CardId} {id : CardId}
    (hs : SegSetOK s) (hid : id ≠ "") :
    SegSetOK (starToggleSet (maybeEvict s id) id).1 := by
  obtain ⟨hnd, hlen, hni⟩ := hs
  by_cases hmem : id ∈ s
  · -- unstarring: no eviction happens, the card is erased
    have hev : maybeEvict s id = s := by simp [maybeEvict, hmem]
    rw [hev]
    simp only [starToggleSet, if_pos hmem]
    refine ⟨hnd.erase id, ?_, ?_⟩
    · exact le_trans (List.length_erase_le id s) hlen
    · intro hmem2
      exact hni (List.mem_of_mem_erase hmem2)
  · by_cases hfull : MAX_STARS ≤ s.length
    · -- starring a full segment: the head is evicted, then the card appended
      have hlen5 : s.length = MAX_STARS := le_antisymm hlen hfull
      have hev : maybeEvict s id = s.tail := by
        rw [maybeEvict, if_pos ⟨hmem, hfull⟩]
        exact evictOldest_full hlen5 hni
      have htail : id ∉ s.tail := fun h => hmem (List.mem_of_mem_tail h)
      rw [hev]
      simp only [starToggleSet, if_neg htail, setAdd, if_neg htail]
      refine ⟨?_, ?_, ?_⟩
      · apply List.Nodup.append hnd.tail (List.nodup_singleton id)
        intro x hx hx2
        simp at hx2
        subst hx2
        exact htail hx
      · cases s with
        | nil => simp [MAX_STARS] at hlen5
        | cons h t =>
            simp at hlen5 ⊢
            omega
      · intro hmem2
        rcases List.mem_append.mp hmem2 with h | h
        · exact hni (List.mem_of_mem_tail h)
        · simp at h
          exact hid h.symm
    · -- starring a non-full segment: the card is appended
      have hev : maybeEvict s id = s := by simp [maybeEvict, hfull]
      rw [hev]
      simp only [starToggleSet, if_neg hmem, setAdd, if_neg hmem]
      refine ⟨?_, ?_, ?_⟩
      · simp [List.nodup_append, hnd, hmem]
      · simp
        omega
      · intro hmem2
        rcases List.mem_append.mp hmem2 with h | h
        · exact hni h
        · simp at h
          exact hid h.symm

theorem regOK_toggleStar {m : Registry} (a : CardId → BtnAttrs) (segId : SegId)
    (id : CardId) (confirm : Bool) (hm : RegOK m) :
    RegOK (toggleStar { starred := m, attrs := a } segId id confirm).1.starred := by
  unfold toggleStar
  by_cases hid : id = ""
  · simp [hid]
    exact hm
  · simp only [if_neg hid]
    have hm0 : RegOK (ensureSegment m segId) := regOK_ensureSegment segId hm
    split
    · exact hm0
    · have hset : SegSetOK ((mapGet (ensureSegment m segId) segId).getD []) :=
        segSetOK_getD hm0
      exact regOK_mapSet hm0 (segSetOK_toggle hset hid)

/-! ## Snapshot / hydrate lemmas -/

theorem snapshot_eq (m : Registry) : snapshot m = m := by
  simp [snapshot]

theorem foldl_setAdd_eq {l acc : List CardId} (hn : l.Nodup)
    (hd : ∀ x ∈ l, x ∉ acc) : l.foldl setAdd acc = acc ++ l := by
  induction l generalizing acc with
  | nil => simp
  | cons x xs ih =>
      have hx : x ∉ acc := hd x (by simp)
      have hstep : setAdd acc x = acc ++ [x] := by simp [setAdd, hx]
      simp only [List.foldl_cons, hstep]
      rw [ih hn.of_cons]
      · simp
      · intro y hy hmem
        rcases List.mem_append.mp hmem with h | h
        · exact hd y (by simp [hy]) h
        · simp at h
          subst h
          exact (List.nodup_cons.mp hn).1 hy

theorem jsSetOfList_eq_self {l : List CardId} (hn : l.Nodup) :
    jsSetOfList l = l := by
  have h2 : l.foldl setAdd [] = [] ++ l := foldl_setAdd_eq hn (by simp)
  simpa [jsSetOfList] using h2

theorem hydrate_loop (p : Persisted) (acc : Registry)
    (hdisj : ∀ kv ∈ p, mapGet acc kv.1 = none)
    (hkeys : (p.map Prod.fst).Nodup)
    (hvals : ∀ kv ∈ p, kv.2.Nodup) :
    p.foldl (fun m kv => mapSet m kv.1 (jsSetOfList kv.2)) acc = acc ++ p := by
  induction p generalizing acc with
  | nil => simp
  | cons kv p ih =>
      have hv : jsSetOfList kv.2 = kv.2 := jsSetOfList_eq_self (hvals kv (by simp))
      have hstep : mapSet acc kv.1 (jsSetOfList kv.2) = acc ++ [kv] := by
        rw [hv, mapSet_eq_append kv.2 (hdisj kv (by simp))]
      simp only [List.foldl_cons, hstep]
      rw [ih]
      · simp
      · intro kv2 hkv2
        rw [mapGet_append]
        have hk2 : kv2.1 ≠ kv.1 := by
          intro he
          have h1 : kv.1 ∉ p.map Prod.fst := (List.nodup_cons.mp (by simpa using hkeys)).1
          exact h1 (he ▸ List.mem_map_of_mem Prod.fst hkv2)
        rw [hdisj kv2 (by simp [hkv2])]
        simp [mapGet, Ne.symm hk2]
      · exact (List.nodup_cons.mp (by simpa using hkeys)).2
      · intro kv2 hkv2
        exact hvals kv2 (by simp [hkv2])

theorem hydrate_snapshot_of_regOK {m : Registry} (hm : RegOK m) :
    hydrate (snapshot m) = m := by
  rw [snapshot_eq]
  have := hydrate_loop m [] (by simp [mapGet]) hm.1
    (fun kv hkv => (hm.2 kv hkv).1)
  simpa [hydrate] using this

theorem regOK_of_reachable {m : Registry} (h : Reachable m) : RegOK m := by
  induction h with
  | empty => exact regOK_nil
  | ensureSeg k _ ih => exact regOK_ensureSegment k ih
  | toggle a segId id confirm _ ih => exact regOK_toggleStar a segId id confirm ih
  | reload _ ih => rw [hydrate_snapshot_of_regOK ih]; exact ih

/-! ## Claim theorems: the toggle state machine -/

/-- Claim C1: for every sequence of star-toggle operations applied to a
segment (starting from the initial hydrated registry state, i.e. any state the
engine itself can produce and rehydrate), the segment's starred set never has
more than `MAX_STARS = 5` elements after any toggle completes. -/
theorem star_capacity_invariant (m : Registry) (h : Reachable m)
    (segId : SegId) (s : List CardId) (hs : mapGet m segId = some s) :
    s.length ≤ MAX_STARS :=
  ((regOK_of_reachable h).2 (segId, s) (mapGet_mem hs)).2.1

/-- Witness for C1: the segment set after starring one card on a fresh
registry has at most 5 elements. -/
theorem star_capacity_invariant_witness :
    (["c1"] : List CardId).length ≤ MAX_STARS :=
  star_capacity_invariant _
    (Reachable.toggle defaultAttrs "seg" "c1" true Reachable.empty)
    "seg" ["c1"] (by decide)

/-- A state whose only segment `"seg"` is at star capacity, used by several
witnesses (five distinct starred cards in insertion order `a,b,c,d,e`). -/
def stFull : AppState :=
  { starred := [("seg", ["a", "b", "c", "d", "e"])], attrs := defaultAttrs }

/-- Claim C3: when a toggle requests starring a card not in its segment's
starred set while the set is at capacity and the user declines the eviction
confirmation, the operation aborts with the whole state unchanged and no
persistence write (`none` in the second component). -/
theorem full_segment_declined_noop (st : AppState) (segId id : String)
    (s : List CardId) (hget : mapGet st.starred segId = some s)
    (hlen : s.length = MAX_STARS) (hid : id ∉ s) :
    toggleStar st segId id false = (st, none) := by
  unfold toggleStar
  by_cases h0 : id = ""
  · simp [h0]
  · have hhas : mapHas st.starred segId = true := by simp [mapHas, hget]
    have hens : ensureSegment st.starred segId = st.starred := by
      simp [ensureSegment, hhas]
    simp only [if_neg h0, hens, hget, Option.getD_some]
    rw [if_pos ⟨hid, le_of_eq hlen.symm, by simp⟩]

/-- Witness for C3: declining the prompt on the full segment changes nothing
and saves nothing. -/
theorem full_segment_declined_noop_witness :
    toggleStar stFull "seg" "f" false = (stFull, none) :=
  full_segment_declined_noop stFull "seg" "f" ["a", "b", "c", "d", "e"]
    (by decide) (by decide) (by decide)

/-- Claim C2: starring a new card in a segment whose starred set holds 5
entries, with the user confirming eviction, removes exactly the
earliest-inserted member (the head of the insertion-ordered set) and appends
the requested card: the set becomes `s.tail ++ [id]`. -/
theorem full_segment_confirmed_evicts_oldest (st : AppState) (segId id : String)
    (s : List CardId) (hget : mapGet st.starred segId = some s)
    (hlen : s.length = MAX_STARS) (hid : id ∉ s) (hid0 : id ≠ "")
    (hni : "" ∉ s) :
    mapGet (toggleStar st segId id true).1.starred segId
      = some (s.tail ++ [id]) := by
  have hhas : mapHas st.starred segId = true := by simp [mapHas, hget]
  have hens : ensureSegment st.starred segId = st.starred := by
    simp [ensureSegment, hhas]
  have hev : maybeEvict s id = s.tail := by
    rw [maybeEvict, if_pos ⟨hid, le_of_eq hlen.symm⟩, evictOldest_full hlen hni]
  have htail : id ∉ s.tail := fun h => hid (List.mem_of_mem_tail h)
  have htog : starToggleSet (maybeEvict s id) id = (s.tail ++ [id], true) := by
    rw [hev]
    simp [starToggleSet, htail, setAdd]
  simp only [toggleStar, if_neg hid0, hens, hget, Option.getD_some]
  rw [if_neg (by simp)]
  simp [htog, mapGet_mapSet_self]

/-- Witness for C2: confirming eviction on the full segment drops `"a"` (the
oldest star) and appends `"f"`. -/
theorem full_segment_confirmed_evicts_oldest_witness :
    mapGet (toggleStar stFull "seg" "f" true).1.starred "seg"
      = some ["b", "c", "d", "e", "f"] := by
  have h := full_segment_confirmed_evicts_oldest stFull "seg" "f"
    ["a", "b", "c", "d", "e"] (by decide) (by decide) (by decide) (by decide)
    (by decide)
  simpa using h

/-- Claim C4: for every reachable registry state, materializing the
per-segment sets into the persisted shape (`snapshot`, as done before each
save) and hydrating a fresh registry from it (`hydrate`, as done at init)
reproduces the starred-set state exactly, membership and insertion order
included, for every segment. -/
theorem snapshot_hydrate_roundtrip (m : Registry) (h : Reachable m) :
    hydrate (snapshot m) = m :=
  hydrate_snapshot_of_regOK (regOK_of_reachable h)

/-- Witness for C4: the round trip is the identity on the registry produced
by starring one card on a fresh state. -/
theorem snapshot_hydrate_roundtrip_witness :
    hydrate (snapshot [("seg", ["c1"])]) = [("seg", ["c1"])] := by
  have h0 := Reachable.toggle defaultAttrs "seg" "c1" true Reachable.empty
  have he : (toggleStar { starred := [], attrs := defaultAttrs }
      "seg" "c1" true).1.starred = [("seg", ["c1"])] := by decide
  rw [he] at h0
  exact snapshot_hydrate_roundtrip _ h0

/-- Claim C10: a toggle rewrites the star-indicator attributes of the toggled
card's button only; every other card's button — in particular an evicted
card's — keeps its previous attributes. -/
theorem toggle_star_attr_frame (st : AppState) (segId id c : String)
    (confirm : Bool) (hc : c ≠ id) :
    (toggleStar st segId id confirm).1.attrs c = st.attrs c := by
  unfold toggleStar
  by_cases h0 : id = ""
  · simp [h0]
  · simp only [if_neg h0]
    split
    · rfl
    · simp [hc]

/-- Witness for C10: when starring `"f"` evicts `"a"` from the full segment,
the evicted card's button attributes are untouched. -/
theorem toggle_star_attr_frame_witness :
    (toggleStar stFull "seg" "f" true).1.attrs "a" = stFull.attrs "a" :=
  toggle_star_attr_frame stFull "seg" "f" "a" true (by decide)

/-! ## Claim theorems: reordering engine -/

/-- Claim C5 (counterexample): the claim that the full reorder lays out the
starred block in star insertion order is false.  With cards at original
indices 0-4 in startup DOM order and index 3 starred before index 1, the
claim demands `[3,1,0,2,4]`, but `reorderSegment` builds the starred block in
current DOM order and yields `[1,3,0,2,4]`. -/
theorem full_reorder_ignores_insertion_order :
    reorderSegment [d0, d1, d2, d3, d4] ["card3", "card1"]
      = [d1, d3, d0, d2, d4] ∧
    reorderSegment [d0, d1, d2, d3, d4] ["card3", "card1"]
      ≠ [d3, d1, d0, d2, d4] := by decide

/-- Claim C5 (amended): the full reorder lays out the starred cards first in
their current DOM order (at startup, ascending original-index order), then the
unstarred cards in ascending original-index order; stars on indices {1,3}
yield `[1,3,0,2,4]` regardless of which was starred first. -/
theorem full_reorder_dom_order_layout :
    reorderSegment [d0, d1, d2, d3, d4] ["card1", "card3"]
      = [d1, d3, d0, d2, d4] ∧
    reorderSegment [d0, d1, d2, d3, d4] ["card3", "card1"]
      = [d1, d3, d0, d2, d4] := by decide

/-- Claim C9: unstarring the card with original index 2 while indices {0,4}
stay starred and {1,3} are unstarred (current DOM order `[0,4,2,1,3]`, the
unstarred block being `[1,3]` as the claim's `[0,4,1,3]` lists it) repositions
it after the starred block and before the first unstarred card with a larger
original index, yielding `[0,4,1,2,3]`. -/
theorem reposition_unstarred_restores_position :
    repositionCard [d0, d4, d2, d1, d3] ["card0", "card4"] d2
      = [d0, d4, d1, d2, d3] := by decide

/-! ## Claim theorems: identity resolution -/

/-- The environment produced by visiting the page with the query string
`?uid=%` — or with the well-formed `?uid=%25`, since `URLSearchParams`
form-decodes `%25` to `"%"` before the script's own `decodeURIComponent`
runs — and no stored identity. -/
def envPercent : Env :=
  { queryUid := some "%", queryUser := none, lsMainUid := none,
    ssMainUid := none, lsCachedUid := none }

/-- The environment with no identity token anywhere. -/
def envEmpty : Env :=
  { queryUid := none, queryUser := none, lsMainUid := none,
    ssMainUid := none, lsCachedUid := none }

/-- Claim C6 (code bug): startup identity resolution does NOT succeed for
every URL query string.  `decodeURIComponent` at script.js line 23 is outside
every try/catch; for the query string `?uid=%` (and even the well-formed
`?uid=%25`, which `URLSearchParams` first decodes to `"%"`), it throws an
uncaught `URIError` (modelled as `none`), killing the whole script before the
app initializes.  The guest-fallback path itself (no token anywhere) does
succeed, as the claim says. -/
theorem uid_resolution_crashes_on_malformed_token :
    resolveUSER_UID envPercent = none ∧
    decodeURIComponent "%" = none ∧
    resolveUSER_UID envEmpty = some "guest_user" := by decide

/-- Claim C8: the resolved identity is the first truthy value among the URL
token (two parameter names, URL-decoded), the main-site token (persistent
then session storage), the cached token, and the guest literal; and the cache
slot is rewritten exactly when the resolved identity differs from the cached
value (in particular a cache-sourced resolution leaves the cache untouched). -/
theorem uid_resolution_order_and_cache_write (e : Env) :
    (∀ t, uidFromUrl e = some t → resolveUSER_UID e = decodeURIComponent t) ∧
    (uidFromUrl e = none → ∀ m, uidFromMainSite e = some m →
      resolveUSER_UID e = some m) ∧
    (uidFromUrl e = none → uidFromMainSite e = none →
      ∀ c, cachedUid e = some c →
        resolveUSER_UID e = some c ∧ uidPersistWrite c (cachedUid e) = false) ∧
    (uidFromUrl e = none → uidFromMainSite e = none → cachedUid e = none →
      resolveUSER_UID e = some "guest_user") ∧
    (∀ u, resolveUSER_UID e = some u → u ≠ "" →
      (uidPersistWrite u (cachedUid e) = true ↔ cachedUid e ≠ some u)) := by
  refine ⟨?_, ?_, ?_, ?_, ?_⟩
  · intro t ht
    simp [resolveUSER_UID, ht]
  · intro h1 m h2
    simp [resolveUSER_UID, h1, h2]
  · intro h1 h2 c h3
    constructor
    · simp [resolveUSER_UID, h1, h2, h3]
    · simp [uidPersistWrite, h3]
  · intro h1 h2 h3
    simp [resolveUSER_UID, h1, h2, h3]
  · intro u _ hne
    simp only [uidPersistWrite, Bool.and_eq_true, bne_iff_ne]
    constructor
    · intro h h2
      exact h.2 h2.symm
    · intro h
      exact ⟨hne, fun h2 => h h2.symm⟩

/-- Environment of the C8 scenario "URL token `abc`, different cached value":
`?uid=abc` with cached `old`. -/
def envAbc : Env :=
  { queryUid := some "abc", queryUser := none, lsMainUid := none,
    ssMainUid := none, lsCachedUid := some "old" }

/-- Environment of the C8 scenario "no URL token, no main-site token, cached
token `u1`". -/
def envU1 : Env :=
  { queryUid := none, queryUser := none, lsMainUid := none,
    ssMainUid := none, lsCachedUid := some "u1" }

/-- Witness for C8: the two scenarios of the claim, concretely.  A URL token
`abc` resolves and overwrites the differing cached value; a cache-sourced
`u1` resolves with no cache write. -/
theorem uid_resolution_order_and_cache_write_witness :
    resolveUSER_UID envAbc = some "abc" ∧
    uidPersistWrite "abc" (cachedUid envAbc) = true ∧
    resolveUSER_UID envU1 = some "u1" ∧
    uidPersistWrite "u1" (cachedUid envU1) = false := by
  have hA := uid_resolution_order_and_cache_write envAbc
  have hU := uid_resolution_order_and_cache_write envU1
  have h1 : resolveUSER_UID envAbc = some "abc" := by
    rw [hA.1 "abc" (by decide)]
    decide
  have h2 : uidPersistWrite "abc" (cachedUid envAbc) = true :=
    (hA.2.2.2.2 "abc" h1 (by decide)).mpr (by decide)
  have h3 := hU.2.2.1 (by decide) (by decide) "u1" (by decide)
  exact ⟨h1, h2, h3.1, h3.2⟩

/-! ## Claim theorems: card indexer -/

theorem assignCards_get (autoId idx : Nat) (cards : List CardDom) (j : Nat)
    (card : CardDom) (h : cards[j]? = some card) :
    ∃ card', (assignCards autoId idx cards).2[j]? = some card' ∧
      (card.id ≠ "" → card'.id = card.id) ∧
      card'.origIndex = some (idx + j) := by
  induction cards generalizing autoId idx j with
  | nil => simp at h
  | cons c rest ih =>
      cases j with
      | zero =>
          simp only [List.getElem?_cons_zero, Option.some.injEq] at h
          subst h
          by_cases hc : c.id = ""
          · refine ⟨{ id := "card-" ++ toString (autoId + 1),
                      origIndex := some idx }, ?_, ?_, ?_⟩
            · simp [assignCards, hc]
            · intro hne
              exact absurd hc hne
            · simp
          · refine ⟨{ id := c.id, origIndex := some idx }, ?_, ?_, ?_⟩
            · simp [assignCards, hc]
            · intro _
              rfl
            · simp
      | succ j =>
          simp only [List.getElem?_cons_succ] at h
          obtain ⟨card', h1, h2, h3⟩ :=
            ih (if c.id = "" then autoId + 1 else autoId) (idx + 1) j h
          refine ⟨card', ?_, h2, ?_⟩
          · simpa [assignCards] using h1
          · rw [h3]
            congr 1
            omega

/-- Claim C7 (amended): rerunning the card indexer reassigns no existing card
identifier and no existing segment identifier, but it unconditionally
recomputes every card's recorded original index to the card's current
position among its segment's cards — so the original index is preserved only
when the segment's DOM order is unchanged, and changes when the DOM was
reordered since discovery. -/
theorem setup_cards_rerun_behavior (autoId : Nat) (segs : List SegDom)
    (i j : Nat) (seg : SegDom) (card : CardDom)
    (hseg : segs[i]? = some seg) (hcard : seg.cards[j]? = some card) :
    ∃ seg' card', (setupCards autoId segs).2[i]? = some seg' ∧
      seg'.cards[j]? = some card' ∧
      (seg.segId ≠ "" → seg'.segId = seg.segId) ∧
      (card.id ≠ "" → card'.id = card.id) ∧
      card'.origIndex = some j := by
  induction segs generalizing i autoId with
  | nil => simp at hseg
  | cons s rest ih =>
      cases i with
      | zero =>
          simp only [List.getElem?_cons_zero, Option.some.injEq] at hseg
          subst hseg
          obtain ⟨card', h1, h2, h3⟩ := assignCards_get autoId 0 s.cards j card hcard
          refine ⟨(setupSeg autoId s).2, card', ?_, ?_, ?_, h2, ?_⟩
          · simp [setupCards]
          · simpa [setupSeg] using h1
          · intro hne
            simp [setupSeg, hne]
          · simpa using h3
      | succ i =>
          simp only [List.getElem?_cons_succ] at hseg
          obtain ⟨seg', card', h1, h2, h3, h4, h5⟩ := ih (setupSeg autoId s).1 i hseg
          exact ⟨seg', card', by simpa [setupCards] using h1, h2, h3, h4, h5⟩

/-- The first card of the reordered, already-indexed segment: `card-2`, which
was assigned original index 1 at discovery but now stands first. -/
def cardW : CardDom := { id := "card-2", origIndex := some 1 }

/-- An already-indexed segment whose two cards were swapped in the DOM after
discovery (as the reordering engine does): `card-2` (discovered at index 1)
now precedes `card-1` (discovered at index 0). -/
def segReindexInput : SegDom :=
  { segId := "grid1", idAttr := "grid1", className := "",
    cards := [cardW, { id := "card-1", origIndex := some 0 }] }

/-- Claim C7 (counterexample): rerunning `setupCards` on the already-indexed
but reordered segment rewrites both recorded original indices (`card-2` gets
0, `card-1` gets 1), contradicting the claim that an assigned original index
never changes; identifiers are indeed untouched. -/
theorem setup_cards_reassigns_orig_index :
    (setupCards 0 [segReindexInput]).2
      = [{ segId := "grid1", idAttr := "grid1", className := "",
           cards := [{ id := "card-2", origIndex := some 0 },
                     { id := "card-1", origIndex := some 1 }] }] ∧
    segReindexInput.cards ≠ [{ id := "card-2", origIndex := some 0 },
                             { id := "card-1", origIndex := some 1 }] := by
  decide

/-- Witness for the amended C7: on the reordered segment, `card-2` keeps its
identifier and the segment keeps `grid1`, while `card-2`'s original index is
recomputed to its current position 0. -/
theorem setup_cards_rerun_behavior_witness :
    ∃ seg' card', (setupCards 0 [segReindexInput]).2[0]? = some seg' ∧
      seg'.cards[0]? = some card' ∧
      (segReindexInput.segId ≠ "" → seg'.segId = segReindexInput.segId) ∧
      (cardW.id ≠ "" → card'.id = cardW.id) ∧
      card'.origIndex = some 0 :=
  setup_cards_rerun_behavior 0 [segReindexInput] 0 0 segReindexInput cardW
    (by decide) (by decide)
